import Mathlib

/-
Verification of the trueBlinders color-vision-deficiency video filter
(src/trueBlinders.py) against its natural-language specification.

Shallow embedding:
  * A pixel is a triple of natural-number channel intensities, stored in the
    native (BGR) byte order frames arrive in from the decoder.
  * A frame is a list of rows of pixels.
  * Python floats are modelled as exact rationals; the matrices' decimal
    coefficients are exact in this model.
  * `apply_colorblind_filter` mirrors lines 27-50 of the source: swap BGR to
    RGB, dot each pixel vector with the matrix rows, clip to [0, 255],
    narrow to uint8 by truncation, swap back to BGR.
  * `process_video` mirrors lines 52-116 as a trace-producing function: the
    observable I/O actions (opening the capture, creating the writer,
    reading/writing frames, progress callbacks, releases, the error and
    success message boxes) are recorded in order as a list of events.
    Python exceptions (a failing write, the ZeroDivisionError raised by
    `frame_num / total_frames` when `total_frames` is 0) jump to the
    `except` handler, which only reports the error.
-/

namespace TrueBlinders

/-- One pixel in native (BGR) channel order: three 8-bit channel
intensities, modelled as naturals. -/
structure Pixel where
  c1 : ℕ
  c2 : ℕ
  c3 : ℕ
deriving DecidableEq

/-- A frame: a dense grid of pixels, as a list of rows. -/
abbrev Frame := List (List Pixel)

/-- A 3x3 transform matrix of rational coefficients (Python floats are
modelled as exact rationals). -/
structure Mat3 where
  a11 : ℚ
  a12 : ℚ
  a13 : ℚ
  a21 : ℚ
  a22 : ℚ
  a23 : ℚ
  a31 : ℚ
  a32 : ℚ
  a33 : ℚ
deriving DecidableEq

/-- The "Protanopia" catalog matrix (source lines 10-14). -/
def Protanopia : Mat3 :=
  ⟨567/1000, 433/1000, 0, 558/1000, 442/1000, 0, 0, 242/1000, 758/1000⟩

/-- The "Deuteranopia" catalog matrix (source lines 15-19). -/
def Deuteranopia : Mat3 :=
  ⟨625/1000, 375/1000, 0, 700/1000, 300/1000, 0, 0, 300/1000, 700/1000⟩

/-- The "Tritanopia" catalog matrix (source lines 20-24). -/
def Tritanopia : Mat3 :=
  ⟨950/1000, 50/1000, 0, 0, 433/1000, 567/1000, 0, 475/1000, 525/1000⟩

/-- The catalog lookup `COLORBLINDNESS_MATRICES.get(name)` (source lines
9-25, 82). -/
def COLORBLINDNESS_MATRICES (name : String) : Option Mat3 :=
  if name = "Protanopia" then some Protanopia
  else if name = "Deuteranopia" then some Deuteranopia
  else if name = "Tritanopia" then some Tritanopia
  else none

/-- `cv2.cvtColor(frame, cv2.COLOR_BGR2RGB)` on one pixel: swap the first
and third channels.  The inverse conversion RGB2BGR is the same swap. -/
def swapBR (p : Pixel) : Pixel := ⟨p.c3, p.c2, p.c1⟩

/-- `np.clip(x, 0, 255)` on one channel (source line 45). -/
def clip (q : ℚ) : ℚ := max 0 (min q 255)

/-- `.astype(np.uint8)` on one already-clipped channel (source line 45):
the C float-to-unsigned cast truncates toward zero, which on the clipped
range [0, 255] is the floor. -/
def toUint8 (q : ℚ) : ℕ := ⌊q⌋₊

/-- One channel of the engine output: clip to [0, 255], then narrow. -/
def transformChannel (q : ℚ) : ℕ := toUint8 (clip q)

/-- `np.dot(rgb_frame, matrix.T)` on one pixel `p` in RGB order, followed by
clip and uint8 narrowing: each output channel is one matrix row dotted with
the pixel vector (source lines 42-45). -/
def transformPixel (M : Mat3) (p : Pixel) : Pixel :=
  ⟨transformChannel (M.a11 * (p.c1 : ℚ) + M.a12 * (p.c2 : ℚ) + M.a13 * (p.c3 : ℚ)),
   transformChannel (M.a21 * (p.c1 : ℚ) + M.a22 * (p.c2 : ℚ) + M.a23 * (p.c3 : ℚ)),
   transformChannel (M.a31 * (p.c1 : ℚ) + M.a32 * (p.c2 : ℚ) + M.a33 * (p.c3 : ℚ))⟩

/-- `apply_colorblind_filter(frame, matrix)` (source lines 27-50): convert
BGR to RGB, transform every pixel independently, clip and narrow, convert
back to BGR.  Dimensions come from mapping over the same grid. -/
def apply_colorblind_filter (frame : Frame) (M : Mat3) : Frame :=
  frame.map (fun row => row.map (fun p => swapBR (transformPixel M (swapBR p))))

/-- The Controller's per-frame chain application (source lines 98-100): a
left fold threading the frame through each matrix in order. -/
def chainApply (ms : List Mat3) (f : Frame) : Frame :=
  ms.foldl apply_colorblind_filter f

/-- The observable I/O actions of one `process_video` run, in order. -/
inductive Event where
  /-- `cv2.VideoCapture(input_path)` (line 64): attempt to open the input. -/
  | openInput
  /-- `cv2.VideoWriter(output_path, ...)` (line 77): create or truncate the
  output file. -/
  | createOutput
  /-- a successful `cap.read()` (line 93). -/
  | readFrame
  /-- `out.write(filtered_frame)` (line 103). -/
  | writeFrame (f : Frame)
  /-- `progress_callback(p)` (lines 108, 113). -/
  | progressCall (p : ℚ)
  /-- `cap.release()` (lines 85, 111). -/
  | releaseInput
  /-- `out.release()` (lines 86, 112). -/
  | releaseOutput
  /-- an error message box (lines 66, 84, 116): the failure report. -/
  | reportError
  /-- the success message box (line 114). -/
  | reportSuccess
deriving DecidableEq

/-- The filter-resolution loop (source lines 80-88): look up every name in
order; the first unknown name aborts resolution. -/
def resolveFilters : List String → Option (List Mat3)
  | [] => some []
  | name :: rest =>
    match COLORBLINDNESS_MATRICES name with
    | none => none
    | some m =>
      match resolveFilters rest with
      | none => none
      | some ms => some (m :: ms)

/-- The `while True` frame loop (source lines 91-108), producing the event
trace from the current frame counter `n` onward.  `total` is the (possibly
zero) reported total frame count; `frames` are the frames the source can
still decode; `wfa` gives the frame index at which `out.write` raises, if
any.  A raised exception (a failing write, or the ZeroDivisionError from
`frame_num / total_frames` when `total = 0`) transfers control to the
`except` handler (lines 115-116), which only shows the error box: no
release, no further progress. -/
def loopRun (ms : List Mat3) (total : ℤ) (wfa : Option ℕ) :
    List Frame → ℕ → List Event
  | [], _ =>
    [Event.releaseInput, Event.releaseOutput,
     Event.progressCall 100, Event.reportSuccess]
  | f :: rest, n =>
    if wfa = some n then
      [Event.readFrame, Event.reportError]
    else if (n + 1) % 10 = 0 ∨ ((n : ℤ) + 1) = total then
      if total = 0 then
        [Event.readFrame, Event.writeFrame (chainApply ms f), Event.reportError]
      else
        Event.readFrame :: Event.writeFrame (chainApply ms f) ::
        Event.progressCall ((((n : ℚ) + 1) / (total : ℚ)) * 100) ::
        loopRun ms total wfa rest (n + 1)
    else
      Event.readFrame :: Event.writeFrame (chainApply ms f) ::
      loopRun ms total wfa rest (n + 1)

/-- `process_video(input_path, output_path, filters, progress_callback)`
(source lines 52-116) as a trace.  `inputOpens` is `cap.isOpened()`;
`total` is `int(cap.get(cv2.CAP_PROP_FRAME_COUNT))`; `frames` are the
decodable frames; `wfa` the failing write index, if any.  The source opens
the capture first, creates the writer next, and only then resolves the
filter names; an unknown name shows the error box and then releases both
resources. -/
def process_video (inputOpens : Bool) (total : ℤ) (frames : List Frame)
    (wfa : Option ℕ) (filters : List String) : List Event :=
  Event.openInput ::
  (if inputOpens then
    Event.createOutput ::
    (match resolveFilters filters with
     | none => [Event.reportError, Event.releaseInput, Event.releaseOutput]
     | some ms => loopRun ms total wfa frames 0)
  else [Event.reportError])

/-- The sequence of values passed to the progress callback during a run. -/
def progressValues (t : List Event) : List ℚ :=
  t.filterMap (fun e =>
    match e with
    | Event.progressCall p => some p
    | _ => none)

/-! ### Engine lemmas -/

/-- The clipped value never exceeds 255. -/
lemma clip_le (q : ℚ) : clip q ≤ 255 := by
  unfold clip
  exact max_le (by norm_num) (min_le_right q 255)

/-- The clipped value is nonnegative. -/
lemma clip_nonneg (q : ℚ) : 0 ≤ clip q := le_max_left 0 (min q 255)

/-- A value already in [0, 255] is unchanged by clipping. -/
lemma clip_of_mem (q : ℚ) (h0 : 0 ≤ q) (h255 : q ≤ 255) : clip q = q := by
  unfold clip
  rw [min_eq_left h255, max_eq_right h0]

/-- Every narrowed channel lies in [0, 255]. -/
lemma transformChannel_le (q : ℚ) : transformChannel q ≤ 255 := by
  unfold transformChannel toUint8
  exact Nat.floor_le_of_le (by exact_mod_cast clip_le q)

/-- On a whole 8-bit channel value, the clip-and-narrow step is the
identity. -/
lemma transformChannel_natCast (n : ℕ) (h : n ≤ 255) :
    transformChannel (n : ℚ) = n := by
  unfold transformChannel toUint8
  rw [clip_of_mem _ (by positivity) (by exact_mod_cast h), Nat.floor_natCast]

/-- Swapping the first and third channel twice is the identity. -/
lemma swapBR_swapBR (p : Pixel) : swapBR (swapBR p) = p := rfl

/-- A list each of whose members is fixed by `f` is fixed by `List.map f`. -/
lemma map_eq_self_of {α : Type} (f : α → α) :
    ∀ l : List α, (∀ a ∈ l, f a = a) → l.map f = l
  | [], _ => rfl
  | a :: l, h => by
    rw [List.map_cons, h a (List.mem_cons_self a l),
      map_eq_self_of f l (fun b hb => h b (List.mem_cons_of_mem a hb))]

/-! ### Claims about the Color Transform Engine -/

/-- C5: for every 3-channel frame and every transform matrix (the catalog
matrices included), every channel of every pixel of the frame returned by
`apply_colorblind_filter` lies in the closed range [0, 255]; as every
element of a filter chain is such an output, this holds after every
transform application in a chain. -/
theorem c5_output_channels_clipped (M : Mat3) (F : Frame)
    (row : List Pixel) (p : Pixel)
    (hrow : row ∈ apply_colorblind_filter F M) (hp : p ∈ row) :
    (0 ≤ p.c1 ∧ p.c1 ≤ 255) ∧ (0 ≤ p.c2 ∧ p.c2 ≤ 255) ∧
      (0 ≤ p.c3 ∧ p.c3 ≤ 255) := by
  unfold apply_colorblind_filter at hrow
  obtain ⟨row0, -, rfl⟩ := List.mem_map.1 hrow
  obtain ⟨p0, -, rfl⟩ := List.mem_map.1 hp
  refine ⟨⟨Nat.zero_le _, ?_⟩, ⟨Nat.zero_le _, ?_⟩, ⟨Nat.zero_le _, ?_⟩⟩ <;>
    exact transformChannel_le _

/-- Witness for C5 at the all-black 1x1 frame and the Protanopia matrix. -/
theorem c5_witness :
    [Pixel.mk 0 0 0] ∈ apply_colorblind_filter [[Pixel.mk 0 0 0]] Protanopia ∧
      ((0 ≤ (Pixel.mk 0 0 0).c1 ∧ (Pixel.mk 0 0 0).c1 ≤ 255) ∧
        (0 ≤ (Pixel.mk 0 0 0).c2 ∧ (Pixel.mk 0 0 0).c2 ≤ 255) ∧
        (0 ≤ (Pixel.mk 0 0 0).c3 ∧ (Pixel.mk 0 0 0).c3 ≤ 255)) := by
  have hmem : [Pixel.mk 0 0 0] ∈
      apply_colorblind_filter [[Pixel.mk 0 0 0]] Protanopia := by
    simp [apply_colorblind_filter, swapBR, transformPixel, transformChannel,
      toUint8, clip]
  exact ⟨hmem, c5_output_channels_clipped Protanopia [[Pixel.mk 0 0 0]] _ _
    hmem (List.mem_singleton.2 rfl)⟩

/-- C6: `apply_colorblind_filter` preserves the height (number of rows) and
the width of every row of the input frame exactly. -/
theorem c6_dimensions_preserved (F : Frame) (M : Mat3) :
    (apply_colorblind_filter F M).length = F.length ∧
      (apply_colorblind_filter F M).map List.length = F.map List.length := by
  constructor
  · simp [apply_colorblind_filter]
  · simp [apply_colorblind_filter]

/-- C7: the Controller's sequential chain application (a left fold of the
per-frame loop, source lines 98-100) over a two-matrix chain equals the
nested application of the engine. -/
theorem c7_chain_is_sequential (F : Frame) (M1 M2 : Mat3) :
    chainApply [M1, M2] F =
      apply_colorblind_filter (apply_colorblind_filter F M1) M2 := rfl

/-- The identity-equivalent 3x3 matrix: rows are the standard basis
vectors. -/
def identityMat : Mat3 := ⟨1, 0, 0, 0, 1, 0, 0, 0, 1⟩

/-- C8: applying the identity-equivalent matrix to any valid frame (all
channels 8-bit, i.e. at most 255) returns the frame exactly unchanged —
in particular within the claimed rounding tolerance of 1 per channel. -/
theorem c8_identity_fixes_frame (F : Frame)
    (hF : ∀ row ∈ F, ∀ p ∈ row, p.c1 ≤ 255 ∧ p.c2 ≤ 255 ∧ p.c3 ≤ 255) :
    apply_colorblind_filter F identityMat = F := by
  unfold apply_colorblind_filter
  refine map_eq_self_of _ F (fun row hrow => map_eq_self_of _ row ?_)
  intro p hp
  obtain ⟨h1, h2, h3⟩ := hF row hrow p hp
  show swapBR (transformPixel identityMat (swapBR p)) = p
  have e1 : transformPixel identityMat (swapBR p) = swapBR p := by
    unfold transformPixel identityMat swapBR
    simp only [one_mul, zero_mul, add_zero, zero_add]
    rw [transformChannel_natCast _ h3, transformChannel_natCast _ h2,
      transformChannel_natCast _ h1]
  rw [e1, swapBR_swapBR]

/-- Witness for C8 at a concrete 1x2 frame. -/
theorem c8_witness :
    apply_colorblind_filter [[Pixel.mk 10 20 30, Pixel.mk 0 255 7]]
      identityMat = [[Pixel.mk 10 20 30, Pixel.mk 0 255 7]] := by
  refine c8_identity_fixes_frame _ ?_
  intro row hrow p hp
  simp only [List.mem_singleton] at hrow
  subst hrow
  simp only [List.mem_cons, List.not_mem_nil, or_false] at hp
  rcases hp with hp | hp <;> subst hp <;> simp

/-- Evaluation helper: the clip-and-narrow step sends a value of [0, 255]
to the unique natural `n` with `n ≤ q < n + 1`. -/
lemma transformChannel_eq_of (q : ℚ) (n : ℕ) (h0 : 0 ≤ q) (h255 : q ≤ 255)
    (hn : (n : ℚ) ≤ q) (hn1 : q < n + 1) : transformChannel q = n := by
  unfold transformChannel toUint8
  rw [clip_of_mem _ h0 h255, Nat.floor_eq_iff h0]
  exact ⟨hn, hn1⟩

/-- C9: a solid red frame — native (BGR) pixel (0, 0, 255), i.e. RGB
(255, 0, 0) — processed through the "Protanopia" matrix yields exactly the
pixel obtained by dotting the matrix rows with the canonical RGB vector,
clipped and truncated: RGB (144, 142, 0), i.e. native (0, 142, 144);
equivalently, the RGB-side transform sends (255, 0, 0) to (144, 142, 0). -/
theorem c9_protanopia_red :
    apply_colorblind_filter [[Pixel.mk 0 0 255]] Protanopia =
        [[Pixel.mk 0 142 144]] ∧
      transformPixel Protanopia (Pixel.mk 255 0 0) = Pixel.mk 144 142 0 := by
  constructor
  · simp [apply_colorblind_filter, swapBR, transformPixel, Pixel.mk.injEq]
    refine ⟨?_, ?_, ?_⟩ <;>
      (apply transformChannel_eq_of <;> norm_num [Protanopia])
  · unfold transformPixel
    simp only [Pixel.mk.injEq]
    refine ⟨?_, ?_, ?_⟩ <;>
      (apply transformChannel_eq_of <;> norm_num [Protanopia])

/-- C10: the 8-bit narrowing of the engine is truncation toward zero: on
the clipped range [0, 255] the narrowed channel is the greatest natural
not exceeding the exact value (the fractional part is discarded), and the
exact Protanopia red channel value 144.585 narrows to 144 — not to the
nearest integer 145, which `round` would give. -/
theorem c10_narrowing_truncates :
    (∀ q : ℚ, 0 ≤ q → q ≤ 255 →
        (transformChannel q : ℚ) ≤ q ∧ q < (transformChannel q : ℚ) + 1) ∧
      transformChannel (144585/1000) = 144 ∧
      round (144585/1000 : ℚ) = 145 := by
  refine ⟨fun q h0 h255 => ?_, ?_, ?_⟩
  · unfold transformChannel toUint8
    rw [clip_of_mem _ h0 h255]
    exact ⟨Nat.floor_le h0, Nat.lt_floor_add_one q⟩
  · apply transformChannel_eq_of <;> norm_num
  · rw [round_eq, Int.floor_eq_iff]
    norm_num

/-- Witness for C10: the truncation bounds instantiated at the concrete
channel value 1/2, whose fractional part is discarded. -/
theorem c10_witness :
    (transformChannel (1/2) : ℚ) ≤ 1/2 ∧
      (1/2 : ℚ) < (transformChannel (1/2) : ℚ) + 1 :=
  c10_narrowing_truncates.1 (1/2) (by norm_num) (by norm_num)

/-! ### Controller lemmas -/

lemma progressValues_nil : progressValues [] = [] := rfl

lemma progressValues_cons_openInput (t : List Event) :
    progressValues (Event.openInput :: t) = progressValues t := rfl

lemma progressValues_cons_createOutput (t : List Event) :
    progressValues (Event.createOutput :: t) = progressValues t := rfl

lemma progressValues_cons_readFrame (t : List Event) :
    progressValues (Event.readFrame :: t) = progressValues t := rfl

lemma progressValues_cons_writeFrame (f : Frame) (t : List Event) :
    progressValues (Event.writeFrame f :: t) = progressValues t := rfl

lemma progressValues_cons_progressCall (p : ℚ) (t : List Event) :
    progressValues (Event.progressCall p :: t) = p :: progressValues t := rfl

lemma progressValues_cons_releaseInput (t : List Event) :
    progressValues (Event.releaseInput :: t) = progressValues t := rfl

lemma progressValues_cons_releaseOutput (t : List Event) :
    progressValues (Event.releaseOutput :: t) = progressValues t := rfl

lemma progressValues_cons_reportError (t : List Event) :
    progressValues (Event.reportError :: t) = progressValues t := rfl

lemma progressValues_cons_reportSuccess (t : List Event) :
    progressValues (Event.reportSuccess :: t) = progressValues t := rfl

/-- The frame loop always produces at least one event. -/
lemma loopRun_ne_nil (ms : List Mat3) (total : ℤ) (wfa : Option ℕ) :
    ∀ frames (n : ℕ), loopRun ms total wfa frames n ≠ []
  | [], _ => by simp [loopRun]
  | _ :: _, _ => by
    unfold loopRun
    split_ifs <;> simp

lemma getLast?_cons_of_ne_nil {α : Type} (a : α) :
    ∀ l : List α, l ≠ [] → (a :: l).getLast? = l.getLast?
  | [], h => absurd rfl h
  | _ :: _, _ => by rw [List.getLast?_cons_cons]

/-! ### Claims about the Video Pipeline Controller -/

/-- C1 counterexample: a job with the unknown filter name "Achromatopsia"
is rejected — the trace ends in the error report without any frame
processed — but only after the input source was opened and the output file
was created (truncated) by the `VideoWriter` constructor, contradicting
the claim that no I/O is performed before the rejection. -/
theorem c1_counterexample :
    process_video true 0 [] none ["Achromatopsia"] =
        [Event.openInput, Event.createOutput, Event.reportError,
          Event.releaseInput, Event.releaseOutput] ∧
      Event.openInput ∈ process_video true 0 [] none ["Achromatopsia"] ∧
      Event.createOutput ∈ process_video true 0 [] none ["Achromatopsia"] ∧
      Event.reportError ∈ process_video true 0 [] none ["Achromatopsia"] := by
  have h : process_video true 0 [] none ["Achromatopsia"] =
      [Event.openInput, Event.createOutput, Event.reportError,
        Event.releaseInput, Event.releaseOutput] := by
    simp [process_video, resolveFilters, COLORBLINDNESS_MATRICES]
  rw [h]
  simp

/-- C1 amended: a job whose filter-name list fails to resolve (it contains
a name outside the catalog) is rejected with no frame read or written, but
only after the input source is opened and the output file is created; the
error is reported and then both resources are released. -/
theorem c1_amended (total : ℤ) (frames : List Frame) (wfa : Option ℕ)
    (filters : List String) (h : resolveFilters filters = none) :
    process_video true total frames wfa filters =
      [Event.openInput, Event.createOutput, Event.reportError,
        Event.releaseInput, Event.releaseOutput] := by
  simp [process_video, h]

/-- Witness for C1 amended at the unknown name "Achromatopsia". -/
theorem c1_witness :
    resolveFilters ["Achromatopsia"] = none ∧
      process_video true 7 [[[Pixel.mk 1 2 3]]] none ["Achromatopsia"] =
        [Event.openInput, Event.createOutput, Event.reportError,
          Event.releaseInput, Event.releaseOutput] := by
  have h : resolveFilters ["Achromatopsia"] = none := by
    simp [resolveFilters, COLORBLINDNESS_MATRICES]
  exact ⟨h, c1_amended 7 [[[Pixel.mk 1 2 3]]] none ["Achromatopsia"] h⟩

/-- C2: on an input whose descriptor reports 0 total frames, a zero-length
input does complete successfully with a final progress call of 100; but an
input that actually decodes 10 frames reaches the progress computation
`frame_num / total_frames` at frame 10, which divides by zero
(ZeroDivisionError), so the job aborts through the exception handler: the
trace ends in the error report, no success is reported and no progress
call is ever made — the code contradicts the claim that the job terminates
correctly for any actual number of decodable frames. -/
theorem c2_division_by_zero :
    process_video true 0 [] none ["Protanopia"] =
        [Event.openInput, Event.createOutput, Event.releaseInput,
          Event.releaseOutput, Event.progressCall 100, Event.reportSuccess] ∧
      (process_video true 0
          (List.replicate 10 [[Pixel.mk 0 0 0]]) none ["Protanopia"]).getLast?
        = some Event.reportError ∧
      Event.reportSuccess ∉ process_video true 0
          (List.replicate 10 [[Pixel.mk 0 0 0]]) none ["Protanopia"] ∧
      progressValues (process_video true 0
          (List.replicate 10 [[Pixel.mk 0 0 0]]) none ["Protanopia"]) = [] := by
  refine ⟨by simp [process_video, resolveFilters, COLORBLINDNESS_MATRICES,
    loopRun], ?_, ?_, ?_⟩ <;>
    simp [process_video, resolveFilters, COLORBLINDNESS_MATRICES, loopRun,
      List.replicate, progressValues, List.getLast?]

/-- If the frame loop ends in the error report (an exception reached the
`except` handler), then neither resource release ever happened in it. -/
lemma loopRun_error_no_release (ms : List Mat3) (total : ℤ) (wfa : Option ℕ) :
    ∀ frames (n : ℕ),
      (loopRun ms total wfa frames n).getLast? = some Event.reportError →
      Event.releaseInput ∉ loopRun ms total wfa frames n ∧
        Event.releaseOutput ∉ loopRun ms total wfa frames n
  | [], n => by
    intro h
    simp [loopRun] at h
  | f :: rest, n => by
    intro h
    have ih := loopRun_error_no_release ms total wfa rest (n + 1)
    unfold loopRun at h ⊢
    split_ifs at h ⊢
    · simp
    · simp
    · rw [getLast?_cons_of_ne_nil _ _ (by simp),
        getLast?_cons_of_ne_nil _ _ (by simp),
        getLast?_cons_of_ne_nil _ _ (loopRun_ne_nil ms total wfa rest (n + 1))]
        at h
      obtain ⟨hin, hout⟩ := ih h
      simp [List.mem_cons, hin, hout]
    · rw [getLast?_cons_of_ne_nil _ _ (by simp),
        getLast?_cons_of_ne_nil _ _ (loopRun_ne_nil ms total wfa rest (n + 1))]
        at h
      obtain ⟨hin, hout⟩ := ih h
      simp [List.mem_cons, hin, hout]

/-- C3 counterexample: a job whose very first frame write fails aborts
through the exception handler: the failure is reported while neither the
input source nor the output sink is released, contradicting the claim
that every acquired resource is released before the failure report. -/
theorem c3_counterexample :
    process_video true 1 [[[Pixel.mk 0 0 0]]] (some 0) ["Protanopia"] =
        [Event.openInput, Event.createOutput, Event.readFrame,
          Event.reportError] ∧
      Event.reportError ∈
        process_video true 1 [[[Pixel.mk 0 0 0]]] (some 0) ["Protanopia"] ∧
      Event.releaseInput ∉
        process_video true 1 [[[Pixel.mk 0 0 0]]] (some 0) ["Protanopia"] ∧
      Event.releaseOutput ∉
        process_video true 1 [[[Pixel.mk 0 0 0]]] (some 0) ["Protanopia"] := by
  have h : process_video true 1 [[[Pixel.mk 0 0 0]]] (some 0) ["Protanopia"] =
      [Event.openInput, Event.createOutput, Event.readFrame,
        Event.reportError] := by
    simp [process_video, resolveFilters, COLORBLINDNESS_MATRICES, loopRun]
  rw [h]
  simp

/-- C3 amended: whenever a job aborts through the exception handler (any
frame-level read or write failure, or the division by zero of the progress
computation — every run whose last event is the failure report), the
input source and the output sink are NOT released; resources are released
only on success and on the unknown-filter rejection path, where the
release happens after, not before, the error report. -/
theorem c3_amended (inputOpens : Bool) (total : ℤ) (frames : List Frame)
    (wfa : Option ℕ) (filters : List String)
    (h : (process_video inputOpens total frames wfa filters).getLast? =
      some Event.reportError) :
    Event.releaseInput ∉ process_video inputOpens total frames wfa filters ∧
      Event.releaseOutput ∉ process_video inputOpens total frames wfa filters
    := by
  unfold process_video at h ⊢
  cases inputOpens with
  | false => simp
  | true =>
    simp only [if_pos] at h ⊢
    cases hres : resolveFilters filters with
    | none =>
      rw [hres] at h
      simp at h
    | some ms =>
      rw [hres] at h
      replace h : (Event.openInput :: Event.createOutput ::
          loopRun ms total wfa frames 0).getLast? = some Event.reportError := h
      show Event.releaseInput ∉ Event.openInput :: Event.createOutput ::
          loopRun ms total wfa frames 0 ∧
        Event.releaseOutput ∉ Event.openInput :: Event.createOutput ::
          loopRun ms total wfa frames 0
      rw [getLast?_cons_of_ne_nil _ _ (by simp),
        getLast?_cons_of_ne_nil _ _ (loopRun_ne_nil ms total wfa frames 0)]
        at h
      obtain ⟨hin, hout⟩ := loopRun_error_no_release ms total wfa frames 0 h
      simp [List.mem_cons, hin, hout]

/-- Witness for C3 amended: a failing write on the first frame. -/
theorem c3_witness :
    Event.releaseInput ∉
        process_video true 1 [[[Pixel.mk 5 5 5]]] (some 0) ["Protanopia"] ∧
      Event.releaseOutput ∉
        process_video true 1 [[[Pixel.mk 5 5 5]]] (some 0) ["Protanopia"] :=
  c3_amended true 1 [[[Pixel.mk 5 5 5]]] (some 0) ["Protanopia"] (by
    simp [process_video, resolveFilters, COLORBLINDNESS_MATRICES, loopRun])

/-- C4 counterexample: on an input whose descriptor under-reports the
total frame count (5 reported, 10 decodable), the job succeeds but the
progress sequence is [100, 200, 100]: the value 200 is outside [0, 100]
and the sequence is not monotonically non-decreasing. -/
theorem c4_counterexample :
    progressValues (process_video true 5
        (List.replicate 10 [[Pixel.mk 0 0 0]]) none ["Protanopia"]) =
      [100, 200, 100] ∧
    ¬ ((200 : ℚ) ≤ 100) ∧
    ¬ List.Pairwise (fun a b => a ≤ b) (progressValues (process_video true 5
        (List.replicate 10 [[Pixel.mk 0 0 0]]) none ["Protanopia"])) := by
  have h : progressValues (process_video true 5
      (List.replicate 10 [[Pixel.mk 0 0 0]]) none ["Protanopia"]) =
        [100, 200, 100] := by
    simp only [process_video, resolveFilters, COLORBLINDNESS_MATRICES,
      loopRun, List.replicate, progressValues]
    norm_num [List.filterMap]
  refine ⟨h, by norm_num, ?_⟩
  rw [h]
  intro hp
  have h21 := (List.pairwise_cons.1 (List.pairwise_cons.1 hp).2).1 100 (by simp)
  norm_num at h21

lemma progressVal_nonneg (total a : ℚ) (htotal : 0 < total) (ha : 0 ≤ a) :
    0 ≤ a / total * 100 := by positivity

lemma progressVal_le_100 (total a : ℚ) (htotal : 0 < total) (ha : a ≤ total) :
    a / total * 100 ≤ 100 := by
  have h1 : a / total ≤ 1 := (div_le_one htotal).2 ha
  calc a / total * 100 ≤ 1 * 100 := mul_le_mul_of_nonneg_right h1 (by norm_num)
  _ = 100 := one_mul 100

lemma progressVal_mono (total a b : ℚ) (htotal : 0 < total) (hab : a ≤ b) :
    a / total * 100 ≤ b / total * 100 :=
  mul_le_mul_of_nonneg_right ((div_le_div_iff_of_pos_right htotal).2 hab)
    (by norm_num)

/-- When the reported total is positive and at least the number of frames
still to decode (counter already at `n`), the frame loop's progress values
all lie between the current percentage and 100, are non-decreasing, and
end in exactly 100, with the run ending in the success report. -/
lemma loopRun_progress_bounds (ms : List Mat3) (total : ℤ)
    (htotal : 0 < total) :
    ∀ frames (n : ℕ), (n : ℤ) + frames.length ≤ total →
      (∀ v ∈ progressValues (loopRun ms total none frames n),
          ((n : ℚ) / (total : ℚ)) * 100 ≤ v ∧ 0 ≤ v ∧ v ≤ 100) ∧
        List.Pairwise (fun a b => a ≤ b)
          (progressValues (loopRun ms total none frames n)) ∧
        (progressValues (loopRun ms total none frames n)).getLast? =
          some 100 ∧
        (loopRun ms total none frames n).getLast? = some Event.reportSuccess
  | [], n => by
    intro hlen
    have htq : (0 : ℚ) < (total : ℤ) := by exact_mod_cast htotal
    have hnq : (n : ℚ) ≤ ((total : ℤ) : ℚ) := by
      simp only [List.length_nil, Nat.cast_zero, add_zero] at hlen
      exact_mod_cast hlen
    have hpv : progressValues (loopRun ms total none [] n) = [100] := rfl
    refine ⟨?_, ?_, ?_, rfl⟩
    · intro v hv
      rw [hpv, List.mem_singleton] at hv
      subst hv
      exact ⟨progressVal_le_100 _ _ htq hnq, by norm_num, le_refl 100⟩
    · rw [hpv]
      simp
    · rw [hpv]
      rfl
  | f :: rest, n => by
    intro hlen
    have htq : (0 : ℚ) < (total : ℤ) := by exact_mod_cast htotal
    have hlen' : ((n + 1 : ℕ) : ℤ) + rest.length ≤ total := by
      simp only [List.length_cons] at hlen
      push_cast at hlen ⊢
      linarith
    have hsucc : (((n + 1 : ℕ) : ℚ)) ≤ ((total : ℤ) : ℚ) := by
      have : ((n + 1 : ℕ) : ℤ) ≤ total := le_trans
        (le_add_of_nonneg_right (Int.ofNat_nonneg rest.length)) hlen'
      exact_mod_cast this
    have ih := loopRun_progress_bounds ms total htotal rest (n + 1) hlen'
    obtain ⟨ihB, ihP, ihL, ihS⟩ := ih
    have hlow : ((n : ℚ) / (total : ℚ)) * 100 ≤
        (((n : ℚ) + 1) / (total : ℚ)) * 100 :=
      progressVal_mono _ _ _ htq (by linarith)
    have hcast : (((n + 1 : ℕ) : ℚ)) = (n : ℚ) + 1 := by push_cast; ring
    rw [hcast] at hsucc
    rw [hcast] at ihB
    have hpvne : progressValues (loopRun ms total none rest (n + 1)) ≠ [] := by
      intro he
      rw [he] at ihL
      exact Option.noConfusion ihL
    have hloopne := loopRun_ne_nil ms total none rest (n + 1)
    unfold loopRun
    rw [if_neg (by simp)]
    by_cases hg : (n + 1) % 10 = 0 ∨ ((n : ℤ) + 1) = total
    · rw [if_pos hg, if_neg (by omega)]
      simp only [progressValues_cons_readFrame, progressValues_cons_writeFrame,
        progressValues_cons_progressCall]
      refine ⟨?_, ?_, ?_, ?_⟩
      · intro v hv
        rcases List.mem_cons.1 hv with hv | hv
        · subst hv
          exact ⟨hlow, progressVal_nonneg _ _ htq (by positivity),
            progressVal_le_100 _ _ htq hsucc⟩
        · obtain ⟨hl, h0, h100⟩ := ihB v hv
          exact ⟨le_trans hlow hl, h0, h100⟩
      · refine List.pairwise_cons.2 ⟨fun b hb => (ihB b hb).1, ihP⟩
      · rw [getLast?_cons_of_ne_nil _ _ hpvne]
        exact ihL
      · rw [getLast?_cons_of_ne_nil _ _ (by simp),
          getLast?_cons_of_ne_nil _ _ (by simp),
          getLast?_cons_of_ne_nil _ _ hloopne]
        exact ihS
    · rw [if_neg hg]
      simp only [progressValues_cons_readFrame, progressValues_cons_writeFrame]
      refine ⟨?_, ihP, ihL, ?_⟩
      · intro v hv
        obtain ⟨hl, h0, h100⟩ := ihB v hv
        exact ⟨le_trans hlow hl, h0, h100⟩
      · rw [getLast?_cons_of_ne_nil _ _ (by simp),
          getLast?_cons_of_ne_nil _ _ hloopne]
        exact ihS

/-- C4 amended: for every job with a resolvable filter chain, no stream
failure, a positive reported total frame count, and at least as many
reported as actually decodable frames (an exact or over-approximate
total), every value passed to the progress callback lies in [0, 100], the
sequence is monotonically non-decreasing, and the final notification of
the successful run is exactly 100.  (When the reported total
under-approximates the decodable frames, the claim fails: progress exceeds
100 and then drops back to 100.) -/
theorem c4_amended (filters : List String) (ms : List Mat3) (total : ℤ)
    (frames : List Frame) (hres : resolveFilters filters = some ms)
    (htotal : 0 < total) (hlen : (frames.length : ℤ) ≤ total) :
    (∀ v ∈ progressValues (process_video true total frames none filters),
        0 ≤ v ∧ v ≤ 100) ∧
      List.Pairwise (fun a b => a ≤ b)
        (progressValues (process_video true total frames none filters)) ∧
      (progressValues (process_video true total frames none filters)).getLast?
        = some 100 ∧
      (process_video true total frames none filters).getLast? =
        some Event.reportSuccess := by
  obtain ⟨hB, hP, hL, hS⟩ := loopRun_progress_bounds ms total htotal frames 0
    (by simpa using hlen)
  have htrace : process_video true total frames none filters =
      Event.openInput :: Event.createOutput ::
        loopRun ms total none frames 0 := by
    simp [process_video, hres]
  rw [htrace]
  simp only [progressValues_cons_openInput, progressValues_cons_createOutput]
  refine ⟨fun v hv => ⟨(hB v hv).2.1, (hB v hv).2.2⟩, hP, hL, ?_⟩
  rw [getLast?_cons_of_ne_nil _ _ (by simp),
    getLast?_cons_of_ne_nil _ _ (loopRun_ne_nil ms total none frames 0)]
  exact hS

/-- Witness for C4 amended: a 3-frame input whose descriptor reports 5
total frames, through the Protanopia filter. -/
theorem c4_witness :
    (∀ v ∈ progressValues (process_video true 5
        (List.replicate 3 [[Pixel.mk 0 0 0]]) none ["Protanopia"]),
        0 ≤ v ∧ v ≤ 100) ∧
      List.Pairwise (fun a b => a ≤ b)
        (progressValues (process_video true 5
          (List.replicate 3 [[Pixel.mk 0 0 0]]) none ["Protanopia"])) ∧
      (progressValues (process_video true 5
        (List.replicate 3 [[Pixel.mk 0 0 0]]) none ["Protanopia"])).getLast?
        = some 100 ∧
      (process_video true 5
          (List.replicate 3 [[Pixel.mk 0 0 0]]) none ["Protanopia"]).getLast?
        = some Event.reportSuccess :=
  c4_amended ["Protanopia"] [Protanopia] 5
    (List.replicate 3 [[Pixel.mk 0 0 0]])
    (by simp [resolveFilters, COLORBLINDNESS_MATRICES]) (by norm_num)
    (by simp)

end TrueBlinders
